import Mathlib

/-!
Verification of the terra-appstream-helper core against its specification.

The Python sources under `src/terra_appstream_helper/` are shallowly embedded
below: strings are lists of characters, XML component documents become the
`Doc` structure, environment/configuration lookups become explicit records,
and each source function becomes a pure Lean function with the same name.
The merge engine (`merge_xml`, living in `xmlutil.py`, which is not part of
the provided sources) is modelled from the specification's §4.1 rules.
-/

set_option maxRecDepth 4096

/-- Python strings, embedded as lists of characters. -/
abbrev Str := List Char

/-- Python `s.endswith(sfx)`: `sfx` is a suffix of `s`. -/
def endswith (sfx s : Str) : Bool := decide (sfx <:+ s)

/-- Python `s.startswith(p)`: `p` starts `s`. -/
def startswith (p s : Str) : Bool := decide (p <+: s)

/-- Python `sub in s` on strings: substring containment. -/
def pyIn (sub s : Str) : Bool := decide (sub <:+: s)

/-- Python `s.lower()` (ASCII-sufficient, character-wise). -/
def lower (s : Str) : Str := s.map Char.toLower

/-- Python whitespace test for `str.strip()` (the characters that occur here). -/
def isPySpace (c : Char) : Bool := c = ' ' || c = '\t' || c = '\n' || c = '\r'

/-- Python `s.strip()`: drop whitespace from both ends. -/
def pyStrip (s : Str) : Str :=
  ((s.dropWhile isPySpace).reverse.dropWhile isPySpace).reverse

/-- Python truthiness of an optional string (`None` and `""` are falsy). -/
def truthy (o : Option Str) : Bool :=
  match o with
  | none => false
  | some s => !s.isEmpty

/-- Python `pkgname and pkgname.endswith(sfx)` on an optional string. -/
def optTruthyEnds (sfx : Str) (o : Option Str) : Bool :=
  match o with
  | none => false
  | some s => !s.isEmpty && endswith sfx s

/-- An `<icon>` element: its `type` attribute and its text. -/
structure Icon where
  itype : Str
  text : Str
deriving DecidableEq

/-- An AppStream component document (the `<component>` tree), with the fields
the helper reads or writes. Singleton elements are `Option`s (absent element,
or element without text, is `none`); `urls`, `provides` and `launchables` are
(type, value) pairs; `releases` holds the `version` attributes in order. -/
structure Doc where
  type? : Option Str := none
  id? : Option Str := none
  name? : Option Str := none
  summary? : Option Str := none
  description? : Option (List Str) := none
  metadata_license? : Option Str := none
  project_license? : Option Str := none
  icon? : Option Icon := none
  developer? : Option Str := none
  urls : List (Str × Str) := []
  releases : List Str := []
  provides : List (Str × Str) := []
  launchables : List (Str × Str) := []
deriving DecidableEq

/-- The configuration record read by `stage2_metainfo` from the
`APPSTREAM_*` / `RPM_*` environment variables (`none` = variable unset). -/
structure Cfg where
  appId : Option Str := none
  license : Option Str := none
  summary : Option Str := none
  description : Option Str := none
  url : Option Str := none
  developerName : Option Str := none
  developerOrgName : Option Str := none
  componentType : Option Str := none
  pkgname : Option Str := none
  namePretty : Option Str := none
deriving DecidableEq

/-- The environment read by `prep_component`
(`RPM_PACKAGE_NAME`, `RPM_PACKAGE_VERSION`, `APPSTREAM_COMPONENT_TYPE`). -/
structure Env where
  pkgname : Option Str := none
  rpmVersion : Option Str := none
  componentType : Option Str := none
deriving DecidableEq

/-- One regular file met by `os.walk`: the directory part, the file name, and
whether `os.access(path, os.X_OK)` holds. -/
structure FileEntry where
  dirpath : Str
  filename : Str
  exec : Bool
deriving DecidableEq

/-- `os.path.join(dirpath, filename)` as used in `prep_component`. -/
def path_of (f : FileEntry) : Str := f.dirpath ++ ('/' :: f.filename)

/-- The fixed `icon_type_map` of `util.get_icon_from_type`. -/
def icon_type_map : List (Str × Str) :=
  [("runtime".toList, "application-x-executable".toList),
   ("console-application".toList, "terminal".toList),
   ("addon".toList, "package".toList),
   ("icon-theme".toList, "preferences-desktop-theme".toList),
   ("codec".toList, "multimedia-codec".toList),
   ("driver".toList, "computer".toList),
   ("repository".toList, "folder".toList)]

/-- `util.get_icon_from_type`: look the component type up in the fixed table
and produce a stock `<icon>`; an unknown (or `None`) type yields no icon. -/
def get_icon_from_type (component_type : Option Str) : Option Icon :=
  match component_type with
  | none => none
  | some ct =>
    match icon_type_map.find? (fun p => decide (p.1 = ct)) with
    | some p => some ⟨"stock".toList, p.2⟩
    | none => none

/-- `util.stage2_metainfo`: synthesize the baseline document from the
configuration. Raising `EnvironmentError` when `APPSTREAM_APPID` is unset or
empty is embedded as `Except.error`; on success the fully built `<component>`
tree is returned. -/
def stage2_metainfo (cfg : Cfg) : Except String Doc :=
  if truthy cfg.appId then
    let appId := cfg.appId.getD []
    Except.ok
      { metadata_license? := some "CC0-1.0".toList
        type? := if truthy cfg.componentType then cfg.componentType else none
        name? := if truthy cfg.namePretty then cfg.namePretty else cfg.pkgname
        icon? := get_icon_from_type
          (if truthy cfg.componentType then cfg.componentType
           else some "console-application".toList)
        id? := some
          (if optTruthyEnds "-nightly".toList cfg.pkgname then
             appId ++ "-nightly".toList
           else if optTruthyEnds "-git".toList cfg.pkgname then
             appId ++ "-git".toList
           else appId)
        project_license? := if truthy cfg.license then cfg.license else none
        urls :=
          if truthy cfg.url then
            let u := cfg.url.getD []
            ("homepage".toList, u) ::
              (if endswith ".git".toList u || pyIn "github.com".toList u
                  || pyIn "gitlab.com".toList u then
                 [("vcs-browser".toList, u)]
               else [])
          else []
        summary? := if truthy cfg.summary then cfg.summary else none
        description? :=
          if truthy cfg.description then some [cfg.description.getD []]
          else if truthy cfg.summary then some [cfg.summary.getD []]
          else none
        developer? :=
          if truthy cfg.developerName then
            some (if truthy cfg.developerOrgName then cfg.developerOrgName.getD []
                  else if truthy cfg.appId then appId
                  else "com.example".toList)
          else none }
  else
    Except.error "APPSTREAM_APPID environment variable is not set."

/-- The icon of a synthesizer result, when one succeeded. -/
def iconOf (r : Except String Doc) : Option Icon :=
  match r with
  | Except.ok d => d.icon?
  | Except.error _ => none

/-- The `<id>` text of a synthesizer result, when one succeeded. -/
def idOf (r : Except String Doc) : Option Str :=
  match r with
  | Except.ok d => d.id?
  | Except.error _ => none

/-! ## Buildroot scanner (`prep_component`'s file loop) -/

/-- The guard of `prep_component`'s first (stand-alone) classification `if`:
shared-library name under a library directory. -/
def rule1Matches (f : FileEntry) : Bool :=
  (endswith ".so".toList f.filename || pyIn ".so.".toList f.filename)
  && (pyIn "usr/lib".toList (path_of f) || pyIn "usr/lib64".toList (path_of f))

/-- The stand-alone first `if` of the scanner loop body: append a `library`
provides entry for a shared library. -/
def rule1Step (d : Doc) (f : FileEntry) : Doc :=
  if rule1Matches f then
    { d with provides := d.provides ++ [("library".toList, f.filename)] }
  else d

/-- The `if`/`elif` chain of the scanner loop body (native library, binary,
desktop entry, service unit; first match wins). -/
def chainStep (d : Doc) (f : FileEntry) : Doc :=
  if (endswith ".dll".toList f.filename || endswith ".lib".toList f.filename)
     && (pyIn "usr/lib".toList (path_of f) || pyIn "usr/lib64".toList (path_of f)) then
    { d with provides := d.provides ++ [("library".toList, f.filename)] }
  else if f.exec && pyIn "usr/bin".toList (path_of f) then
    { d with provides := d.provides ++ [("binary".toList, f.filename)] }
  else if pyIn "usr/share/applications".toList (path_of f)
          && endswith ".desktop".toList f.filename then
    if ("desktop-id".toList, f.filename) ∈ d.launchables then d
    else { d with launchables := d.launchables ++ [("desktop-id".toList, f.filename)] }
  else if pyIn "usr/lib/systemd/system".toList (path_of f)
          && endswith ".service".toList f.filename then
    if ("service".toList, f.filename) ∈ d.launchables then d
    else { d with launchables := d.launchables ++ [("service".toList, f.filename)] }
  else d

/-- The whole loop body of `prep_component` for one visited file. -/
def classify_step (d : Doc) (f : FileEntry) : Doc := chainStep (rule1Step d f) f

/-! ## Variant adjuster (`prep_component`'s suffix loop) -/

/-- The `release_suffixes` table: package-name marker ↦ (id-suffix, name-suffix). -/
def release_suffixes : List (Str × (Str × Str)) :=
  [("-nightly".toList, ("-nightly".toList, " (Nightly)".toList)),
   ("-git".toList, ("-git".toList, " (Git Development Build)".toList))]

/-- Adjust the `<id>` text: append the id-suffix unless the lowered text
already ends with the lowered suffix. -/
def adjId (idsfx : Str) (o : Option Str) : Option Str :=
  match o with
  | none => none
  | some s =>
    if endswith (lower idsfx) (lower s) then some s else some (s ++ idsfx)

/-- The accepted suffix variants computed for the `<name>` adjustment:
the raw suffix lowered, its stripped form, and — when the stripped form is
bracketed — the inner text alone and with a leading space. (The Python set is
embedded as a list; only membership via `any` is ever used.) -/
def suffix_variants (raw : Str) : List Str :=
  let stripped := lower (pyStrip raw)
  lower raw ::
    (if stripped = [] then []
     else if startswith "(".toList stripped && endswith ")".toList stripped then
       let inner := pyStrip ((stripped.drop 1).dropLast)
       if inner = [] then [stripped]
       else [stripped, inner, ' ' :: inner]
     else [stripped])

/-- Adjust the `<name>` text: append the name-suffix unless the lowered text
already ends with one of the accepted variants. -/
def adjName (raw : Str) (o : Option Str) : Option Str :=
  match o with
  | none => none
  | some s =>
    if (suffix_variants raw).any (fun v => endswith v (lower s)) then some s
    else some (s ++ raw)

/-- One iteration of the suffix loop: when the package name ends with the
marker, adjust id and name. -/
def variant_step (pkg : Str) (d : Doc) (entry : Str × (Str × Str)) : Doc :=
  if endswith entry.1 pkg then
    { d with id? := adjId entry.2.1 d.id?, name? := adjName entry.2.2 d.name? }
  else d

/-- The whole suffix loop of `prep_component` (the Variant Adjuster). -/
def adjust_variant (pkg : Str) (d : Doc) : Doc :=
  release_suffixes.foldl (variant_step pkg) d

/-! ## `prep_component` -/

/-- The effective version used for the release entry:
`os.getenv("RPM_PACKAGE_VERSION", "unknown")`. -/
def effVersion (env : Env) : Str := env.rpmVersion.getD "unknown".toList

/-- The release bookkeeping of `prep_component`: append a `<release>` with the
effective version unless one with that exact version is already present. -/
def releaseStep (env : Env) (d : Doc) : Doc :=
  if effVersion env ∈ d.releases then d
  else { d with releases := d.releases ++ [effVersion env] }

/-- The default-icon step of `prep_component`: when the document has no icon,
derive one from the root `type` attribute, falling back (Python `or`) to the
`APPSTREAM_COMPONENT_TYPE` environment value. -/
def iconStep (env : Env) (d : Doc) : Doc :=
  if d.icon?.isNone then
    match get_icon_from_type
        (if truthy d.type? then d.type? else env.componentType) with
    | some ic => { d with icon? := some ic }
    | none => d
  else d

/-- `prep_component`: default icon, release entry, variant suffix adjustment,
then the classification loop over every file found under the buildroot
(in walk order). -/
def prep_component (env : Env) (files : List FileEntry) (d : Doc) : Doc :=
  let d1 := iconStep env d
  let d2 := releaseStep env d1
  let d3 := adjust_variant (env.pkgname.getD []) d2
  files.foldl classify_step d3

/-! ## Merge engine (modelled from the spec) -/

/-- Modelled from the spec: singleton-field rule of the Merge Engine (§4.1).
The engine itself (`merge_xml` in `xmlutil.py`) is not among the provided
sources; per the spec, a value already in `target` is retained unchanged and
an absent one is adopted verbatim from `source`. -/
def mergeSingleton {α : Type} (t s : Option α) : Option α :=
  match t with
  | some v => some v
  | none => s

/-- Modelled from the spec: the Merge Engine `merge_xml(target, source)`
(`xmlutil.py` is not among the provided sources). Per §4.1: singleton fields
keep `target`'s value when present and adopt `source`'s verbatim when absent;
`urls` (keyed by type) and `releases` (keyed by version) gain a `source` entry
only when no entry with that key exists in `target`; `provides` and
`launchables` entries from `source` are appended without de-duplication. -/
def merge_xml (target source : Doc) : Doc :=
  { type? := mergeSingleton target.type? source.type?
    id? := mergeSingleton target.id? source.id?
    name? := mergeSingleton target.name? source.name?
    summary? := mergeSingleton target.summary? source.summary?
    description? := mergeSingleton target.description? source.description?
    metadata_license? := mergeSingleton target.metadata_license? source.metadata_license?
    project_license? := mergeSingleton target.project_license? source.project_license?
    icon? := mergeSingleton target.icon? source.icon?
    developer? := mergeSingleton target.developer? source.developer?
    urls := target.urls ++
      source.urls.filter (fun u => !(target.urls.any (fun t => decide (t.1 = u.1))))
    releases := target.releases ++
      source.releases.filter (fun v => decide (v ∉ target.releases))
    provides := target.provides ++ source.provides
    launchables := target.launchables ++ source.launchables }

/-! ## Basic string lemmas -/

theorem endswith_iff {t s : Str} : endswith t s = true ↔ t <:+ s := by
  simp [endswith]

theorem endswith_append (t s : Str) : endswith t (s ++ t) = true :=
  endswith_iff.mpr (List.suffix_append s t)

theorem lower_append (a b : Str) : lower (a ++ b) = lower a ++ lower b :=
  List.map_append _ _ _

/-- A package name cannot end with both recognized channel markers. -/
theorem nightly_git_excl {pkg : Str} (h1 : endswith "-nightly".toList pkg = true)
    (h2 : endswith "-git".toList pkg = true) : False := by
  obtain ⟨t, ht⟩ := endswith_iff.mp h1
  obtain ⟨u, hu⟩ := endswith_iff.mp h2
  have h : List.getLast? (t ++ "-nightly".toList) = List.getLast? (u ++ "-git".toList) := by
    rw [ht, hu]
  rw [List.getLast?_append_of_ne_nil t (by decide),
      List.getLast?_append_of_ne_nil u (by decide)] at h
  simp at h

/-! ## Variant adjuster lemmas -/

theorem adjId_idem (sfx : Str) (o : Option Str) :
    adjId sfx (adjId sfx o) = adjId sfx o := by
  match o with
  | none => rfl
  | some s =>
    by_cases h : endswith (lower sfx) (lower s) = true
    · simp [adjId, h]
    · have hf : endswith (lower sfx) (lower s) = false := by simpa using h
      have h2 : endswith (lower sfx) (lower (s ++ sfx)) = true := by
        rw [lower_append]; exact endswith_append _ _
      simp [adjId, hf, h2]

theorem suffix_variants_head (raw : Str) :
    ∃ rest, suffix_variants raw = lower raw :: rest := ⟨_, rfl⟩

theorem adjName_idem (raw : Str) (o : Option Str) :
    adjName raw (adjName raw o) = adjName raw o := by
  match o with
  | none => rfl
  | some s =>
    by_cases h : (suffix_variants raw).any (fun v => endswith v (lower s)) = true
    · simp [adjName, h]
    · have hf : (suffix_variants raw).any (fun v => endswith v (lower s)) = false := by
        simpa using h
      have hv : (suffix_variants raw).any (fun v => endswith v (lower (s ++ raw))) = true := by
        obtain ⟨rest, hrest⟩ := suffix_variants_head raw
        rw [hrest, List.any_cons, lower_append, endswith_append]
        simp
      simp [adjName, hf, hv]

theorem variant_step_neg (pkg m i n : Str) (h : endswith m pkg = false) (d : Doc) :
    variant_step pkg d (m, (i, n)) = d := by
  simp [variant_step, h]

theorem variant_step_pos (pkg m i n : Str) (h : endswith m pkg = true) (d : Doc) :
    variant_step pkg d (m, (i, n)) =
      { d with id? := adjId i d.id?, name? := adjName n d.name? } := by
  simp [variant_step, h]

theorem variant_step_pos_idem (pkg m i n : Str) (h : endswith m pkg = true) (d : Doc) :
    variant_step pkg (variant_step pkg d (m, (i, n))) (m, (i, n)) =
      variant_step pkg d (m, (i, n)) := by
  rw [variant_step_pos pkg m i n h, variant_step_pos pkg m i n h]
  simp [adjId_idem, adjName_idem]

/-- The adjuster loop, unfolded over the two fixed channel entries. -/
theorem adjust_variant_unfold (pkg : Str) (x : Doc) :
    adjust_variant pkg x =
      variant_step pkg
        (variant_step pkg x ("-nightly".toList, ("-nightly".toList, " (Nightly)".toList)))
        ("-git".toList, ("-git".toList, " (Git Development Build)".toList)) :=
  rfl

/-- C7: applying the Variant Adjuster twice equals applying it once. -/
theorem adjust_variant_idem (pkg : Str) (d : Doc) :
    adjust_variant pkg (adjust_variant pkg d) = adjust_variant pkg d := by
  rw [adjust_variant_unfold pkg d, adjust_variant_unfold pkg]
  by_cases h1 : endswith "-nightly".toList pkg = true
  · have h2 : endswith "-git".toList pkg = false := by
      by_contra hc
      exact nightly_git_excl h1 (by simpa using hc)
    simp only [variant_step_neg pkg "-git".toList "-git".toList
      " (Git Development Build)".toList h2]
    exact variant_step_pos_idem pkg "-nightly".toList "-nightly".toList
      " (Nightly)".toList h1 d
  · have h1f : endswith "-nightly".toList pkg = false := by simpa using h1
    simp only [variant_step_neg pkg "-nightly".toList "-nightly".toList
      " (Nightly)".toList h1f]
    by_cases h2 : endswith "-git".toList pkg = true
    · exact variant_step_pos_idem pkg "-git".toList "-git".toList
        " (Git Development Build)".toList h2 d
    · have h2f : endswith "-git".toList pkg = false := by simpa using h2
      simp only [variant_step_neg pkg "-git".toList "-git".toList
        " (Git Development Build)".toList h2f]

/-! ## Field-preservation lemmas -/

theorem variant_step_launchables (pkg : Str) (d : Doc) (e : Str × (Str × Str)) :
    (variant_step pkg d e).launchables = d.launchables := by
  unfold variant_step
  split <;> rfl

theorem variant_step_releases (pkg : Str) (d : Doc) (e : Str × (Str × Str)) :
    (variant_step pkg d e).releases = d.releases := by
  unfold variant_step
  split <;> rfl

theorem adjust_variant_launchables (pkg : Str) (d : Doc) :
    (adjust_variant pkg d).launchables = d.launchables := by
  rw [adjust_variant_unfold, variant_step_launchables, variant_step_launchables]

theorem adjust_variant_releases (pkg : Str) (d : Doc) :
    (adjust_variant pkg d).releases = d.releases := by
  rw [adjust_variant_unfold, variant_step_releases, variant_step_releases]

theorem iconStep_launchables (env : Env) (d : Doc) :
    (iconStep env d).launchables = d.launchables := by
  unfold iconStep
  split
  · split <;> rfl
  · rfl

theorem iconStep_releases (env : Env) (d : Doc) :
    (iconStep env d).releases = d.releases := by
  unfold iconStep
  split
  · split <;> rfl
  · rfl

theorem releaseStep_launchables (env : Env) (d : Doc) :
    (releaseStep env d).launchables = d.launchables := by
  unfold releaseStep
  split <;> rfl

theorem rule1Step_launchables (d : Doc) (f : FileEntry) :
    (rule1Step d f).launchables = d.launchables := by
  unfold rule1Step
  split <;> rfl

theorem rule1Step_releases (d : Doc) (f : FileEntry) :
    (rule1Step d f).releases = d.releases := by
  unfold rule1Step
  split <;> rfl

theorem chainStep_releases (d : Doc) (f : FileEntry) :
    (chainStep d f).releases = d.releases := by
  unfold chainStep
  repeat' split
  all_goals rfl

theorem classify_step_releases (d : Doc) (f : FileEntry) :
    (classify_step d f).releases = d.releases := by
  rw [classify_step, chainStep_releases, rule1Step_releases]

theorem foldl_classify_releases (files : List FileEntry) (d : Doc) :
    (files.foldl classify_step d).releases = d.releases := by
  induction files generalizing d with
  | nil => rfl
  | cons f fs ih => rw [List.foldl_cons, ih, classify_step_releases]

theorem nodup_append_single {α : Type} [DecidableEq α] {l : List α} {a : α}
    (ha : a ∉ l) (h : l.Nodup) : (l ++ [a]).Nodup := by
  rw [← List.concat_eq_append]
  exact h.concat ha

theorem chainStep_launchables_nodup (d : Doc) (f : FileEntry)
    (h : d.launchables.Nodup) : (chainStep d f).launchables.Nodup := by
  unfold chainStep
  repeat' split
  all_goals first
    | exact h
    | (rename_i hmem
       exact nodup_append_single hmem h)

theorem classify_step_launchables_nodup (d : Doc) (f : FileEntry)
    (h : d.launchables.Nodup) : (classify_step d f).launchables.Nodup := by
  unfold classify_step
  apply chainStep_launchables_nodup
  rw [rule1Step_launchables]
  exact h

theorem foldl_classify_launchables_nodup (files : List FileEntry) (d : Doc)
    (h : d.launchables.Nodup) : (files.foldl classify_step d).launchables.Nodup := by
  induction files generalizing d with
  | nil => exact h
  | cons f fs ih =>
    rw [List.foldl_cons]
    exact ih _ (classify_step_launchables_nodup d f h)

/-- The scanner never lets duplicate launchables appear. -/
theorem prep_component_launchables_nodup (env : Env) (files : List FileEntry)
    (d : Doc) (h : d.launchables.Nodup) :
    (prep_component env files d).launchables.Nodup := by
  unfold prep_component
  apply foldl_classify_launchables_nodup
  rw [adjust_variant_launchables, releaseStep_launchables, iconStep_launchables]
  exact h

theorem releaseStep_releases (env : Env) (d : Doc) :
    (releaseStep env d).releases =
      if effVersion env ∈ d.releases then d.releases
      else d.releases ++ [effVersion env] := by
  unfold releaseStep
  split <;> rename_i h <;> simp [h]

/-- What `prep_component` does to the release list. -/
theorem prep_component_releases (env : Env) (files : List FileEntry) (d : Doc) :
    (prep_component env files d).releases =
      if effVersion env ∈ d.releases then d.releases
      else d.releases ++ [effVersion env] := by
  unfold prep_component
  rw [foldl_classify_releases, adjust_variant_releases, releaseStep_releases,
      iconStep_releases]

/-! ## Entry-count lemmas for the classification loop body -/

/-- Number of provides plus launchable entries of a document. -/
def entriesCount (d : Doc) : Nat := d.provides.length + d.launchables.length

theorem rule1Step_entries (d : Doc) (f : FileEntry) :
    entriesCount (rule1Step d f) ≤ entriesCount d + 1 := by
  unfold rule1Step entriesCount
  split
  all_goals simp
  all_goals omega

theorem chainStep_entries (d : Doc) (f : FileEntry) :
    entriesCount (chainStep d f) ≤ entriesCount d + 1 := by
  unfold chainStep entriesCount
  repeat' split
  all_goals simp
  all_goals omega

theorem chainStep_count_ge (d : Doc) (f : FileEntry) (p : Str × Str) :
    d.provides.count p ≤ (chainStep d f).provides.count p := by
  unfold chainStep
  repeat' split
  all_goals simp [List.count_append]

theorem rule1Step_count (d : Doc) (f : FileEntry) (h : rule1Matches f = true) :
    (rule1Step d f).provides.count ("library".toList, f.filename)
      = d.provides.count ("library".toList, f.filename) + 1 := by
  unfold rule1Step
  simp [h, List.count_append]

/-! ## Claim theorems -/

/-- C1: synthesizing the baseline document with the app identifier absent or
empty fails with the configuration error, so no document is produced. -/
theorem stage2_requires_appid (cfg : Cfg)
    (h : cfg.appId = none ∨ cfg.appId = some []) :
    stage2_metainfo cfg =
      Except.error "APPSTREAM_APPID environment variable is not set." := by
  have ht : truthy cfg.appId = false := by
    rcases h with h | h <;> simp [truthy, h]
  simp [stage2_metainfo, ht]

/-- Witness for C1 at the empty configuration. -/
theorem stage2_requires_appid_witness :
    (({} : Cfg).appId = none ∨ ({} : Cfg).appId = some []) ∧
      stage2_metainfo {} =
        Except.error "APPSTREAM_APPID environment variable is not set." :=
  ⟨Or.inl rfl, stage2_requires_appid {} (Or.inl rfl)⟩

theorem mergeSingleton_some {α : Type} {t s : Option α} {v : α} (h : t = some v) :
    mergeSingleton t s = some v := by
  rw [h]
  rfl

theorem mergeSingleton_none {α : Type} {t s : Option α} (h : t = none) :
    mergeSingleton t s = s := by
  rw [h]
  rfl

/-- C2: for every singleton field, `merge_xml target source` keeps `target`'s
value when present and adopts `source`'s verbatim when `target` lacks it. -/
theorem merge_singleton_rules (t s : Doc) :
    ((∀ v, t.id? = some v → (merge_xml t s).id? = some v)
      ∧ (t.id? = none → (merge_xml t s).id? = s.id?))
    ∧ ((∀ v, t.name? = some v → (merge_xml t s).name? = some v)
      ∧ (t.name? = none → (merge_xml t s).name? = s.name?))
    ∧ ((∀ v, t.summary? = some v → (merge_xml t s).summary? = some v)
      ∧ (t.summary? = none → (merge_xml t s).summary? = s.summary?))
    ∧ ((∀ v, t.description? = some v → (merge_xml t s).description? = some v)
      ∧ (t.description? = none → (merge_xml t s).description? = s.description?))
    ∧ ((∀ v, t.metadata_license? = some v → (merge_xml t s).metadata_license? = some v)
      ∧ (t.metadata_license? = none → (merge_xml t s).metadata_license? = s.metadata_license?))
    ∧ ((∀ v, t.project_license? = some v → (merge_xml t s).project_license? = some v)
      ∧ (t.project_license? = none → (merge_xml t s).project_license? = s.project_license?))
    ∧ ((∀ v, t.icon? = some v → (merge_xml t s).icon? = some v)
      ∧ (t.icon? = none → (merge_xml t s).icon? = s.icon?))
    ∧ ((∀ v, t.developer? = some v → (merge_xml t s).developer? = some v)
      ∧ (t.developer? = none → (merge_xml t s).developer? = s.developer?))
    ∧ ((∀ v, t.type? = some v → (merge_xml t s).type? = some v)
      ∧ (t.type? = none → (merge_xml t s).type? = s.type?)) :=
  ⟨⟨fun _ h => mergeSingleton_some h, fun h => mergeSingleton_none h⟩,
   ⟨fun _ h => mergeSingleton_some h, fun h => mergeSingleton_none h⟩,
   ⟨fun _ h => mergeSingleton_some h, fun h => mergeSingleton_none h⟩,
   ⟨fun _ h => mergeSingleton_some h, fun h => mergeSingleton_none h⟩,
   ⟨fun _ h => mergeSingleton_some h, fun h => mergeSingleton_none h⟩,
   ⟨fun _ h => mergeSingleton_some h, fun h => mergeSingleton_none h⟩,
   ⟨fun _ h => mergeSingleton_some h, fun h => mergeSingleton_none h⟩,
   ⟨fun _ h => mergeSingleton_some h, fun h => mergeSingleton_none h⟩,
   ⟨fun _ h => mergeSingleton_some h, fun h => mergeSingleton_none h⟩⟩

/-- A higher-precedence document for the C2 witness: `name` present,
`summary` absent. -/
def c2target : Doc := { name? := some "Custom".toList }

/-- A lower-precedence document for the C2 witness: both fields present with
different values. -/
def c2source : Doc :=
  { name? := some "Something Else".toList, summary? := some "short".toList }

/-- Witness for C2: a present `name` survives a conflicting merge and an
absent `summary` is adopted from the source. -/
theorem merge_singleton_rules_witness :
    (merge_xml c2target c2source).name? = some "Custom".toList
      ∧ (merge_xml c2target c2source).summary? = some "short".toList :=
  ⟨(merge_singleton_rules c2target c2source).2.1.1 "Custom".toList rfl,
   by
     rw [(merge_singleton_rules c2target c2source).2.2.1.2 rfl]
     rfl⟩

/-- A versioned shared-library-named systemd unit: matches both the
stand-alone shared-library rule and the service rule of the scanner. -/
def c3file : FileEntry :=
  ⟨"usr/lib/systemd/system".toList, "foo.so.service".toList, false⟩

/-- C3 counterexample: the classification rules are NOT a single first-match
decision list — one visited file can contribute two metadata entries (a
`library` provides entry and a `service` launchable entry), because the
shared-library rule is a stand-alone `if` ahead of the `if`/`elif` chain. -/
theorem classification_two_entries_cex :
    (classify_step {} c3file).provides
        = [("library".toList, "foo.so.service".toList)]
      ∧ (classify_step {} c3file).launchables
        = [("service".toList, "foo.so.service".toList)]
      ∧ ({} : Doc).provides = [] ∧ ({} : Doc).launchables = [] := by
  refine ⟨?_, ?_, rfl, rfl⟩ <;> decide

/-- C3 (amended): the shared-library rule is evaluated stand-alone and the
remaining four rules form a first-match chain, so one visited file contributes
at most one entry from each part — at most two metadata entries in total. -/
theorem classification_entry_bound (d : Doc) (f : FileEntry) :
    entriesCount (rule1Step d f) ≤ entriesCount d + 1
      ∧ entriesCount (chainStep d f) ≤ entriesCount d + 1
      ∧ entriesCount (classify_step d f) ≤ entriesCount d + 2 := by
  refine ⟨rule1Step_entries d f, chainStep_entries d f, ?_⟩
  calc entriesCount (classify_step d f)
      ≤ entriesCount (rule1Step d f) + 1 := chainStep_entries _ f
    _ ≤ entriesCount d + 2 := by
        have := rule1Step_entries d f
        omega

/-- A desktop entry visited by the scanner, used for the C4 witness. -/
def c4file : FileEntry :=
  ⟨"root/usr/share/applications".toList, "app.desktop".toList, false⟩

/-- The environment for the C4 witness scan. -/
def c4env : Env := { pkgname := some "app".toList, rpmVersion := some "1.0".toList }

/-- C4: starting from a document without duplicate launchables, scanning — and
scanning the same buildroot a second time — never yields two launchable
entries with the same (type, value) pair. -/
theorem scan_launchables_nodup (env : Env) (files : List FileEntry) (d : Doc)
    (h : d.launchables.Nodup) :
    (prep_component env files d).launchables.Nodup
      ∧ (prep_component env files (prep_component env files d)).launchables.Nodup :=
  ⟨prep_component_launchables_nodup env files d h,
   prep_component_launchables_nodup env files _
     (prep_component_launchables_nodup env files d h)⟩

/-- Witness for C4: the same desktop entry visited twice per scan, scanned
twice, still yields duplicate-free launchables. -/
theorem scan_launchables_nodup_witness :
    ({} : Doc).launchables.Nodup
      ∧ ((prep_component c4env [c4file, c4file] {}).launchables.Nodup
        ∧ (prep_component c4env [c4file, c4file]
            (prep_component c4env [c4file, c4file] {})).launchables.Nodup) :=
  ⟨by decide, scan_launchables_nodup c4env [c4file, c4file] {} (by decide)⟩

/-- A shared library under a library directory, used for the C5 witness. -/
def c5file : FileEntry :=
  ⟨"root/usr/lib64".toList, "libfoo.so".toList, false⟩

/-- The environment for the C5 witness scan. -/
def c5env : Env := { pkgname := some "app".toList, rpmVersion := some "1.0".toList }

/-- C5: a matching library file always appends a provides entry with no
existence check (the count strictly grows even when the pair is already
present), and consequently a concrete scan that revisits the same file leaves
duplicate provides entries in the document. -/
theorem provides_no_dedup :
    (∀ (d : Doc) (f : FileEntry), rule1Matches f = true →
      d.provides.count ("library".toList, f.filename) + 1
        ≤ (classify_step d f).provides.count ("library".toList, f.filename))
    ∧ ¬ (prep_component c5env [c5file, c5file] {}).provides.Nodup := by
  constructor
  · intro d f h
    have h1 := rule1Step_count d f h
    have h2 := chainStep_count_ge (rule1Step d f) f ("library".toList, f.filename)
    unfold classify_step
    omega
  · decide

/-- Witness for C5: the library rule fires for `libfoo.so` under `usr/lib64`
and the count of its provides pair grows from 0 to at least 1. -/
theorem provides_no_dedup_witness :
    rule1Matches c5file = true
      ∧ ({} : Doc).provides.count ("library".toList, c5file.filename) + 1
        ≤ (classify_step {} c5file).provides.count
            ("library".toList, c5file.filename) :=
  ⟨by decide, provides_no_dedup.1 {} c5file (by decide)⟩

theorem endswith_isEmpty_false {sfx p : Str} (h : endswith sfx p = true)
    (hs : sfx ≠ []) : p.isEmpty = false := by
  obtain ⟨t, ht⟩ := endswith_iff.mp h
  have hne : p ≠ [] := by
    rw [← ht]
    simp [hs]
  cases p with
  | nil => exact absurd rfl hne
  | cons a l => rfl

theorem optTruthyEnds_of_some {sfx p : Str} {o : Option Str} (ho : o = some p)
    (h : endswith sfx p = true) (hs : sfx ≠ []) :
    optTruthyEnds sfx o = true := by
  rw [ho]
  simp [optTruthyEnds, endswith_isEmpty_false h hs, h]

theorem optTruthyEnds_excl {o : Option Str}
    (h : optTruthyEnds "-git".toList o = true) :
    optTruthyEnds "-nightly".toList o = false := by
  cases o with
  | none => rfl
  | some s =>
    simp only [optTruthyEnds, Bool.and_eq_true] at h
    by_contra hc
    simp only [optTruthyEnds, Bool.and_eq_true, Bool.not_eq_false] at hc
    exact nightly_git_excl hc.2 h.2

/-- C6: with an app identifier present, the synthesized `<id>` is the
identifier suffixed `-nightly` when the package name ends with the nightly
marker, suffixed `-git` when it ends with the git marker, and the identifier
unchanged otherwise. -/
theorem stage2_id_suffix (cfg : Cfg) (h : truthy cfg.appId = true) :
    (∀ p, cfg.pkgname = some p → endswith "-nightly".toList p = true →
       idOf (stage2_metainfo cfg) = some (cfg.appId.getD [] ++ "-nightly".toList))
    ∧ (∀ p, cfg.pkgname = some p → endswith "-git".toList p = true →
       idOf (stage2_metainfo cfg) = some (cfg.appId.getD [] ++ "-git".toList))
    ∧ (optTruthyEnds "-nightly".toList cfg.pkgname = false →
       optTruthyEnds "-git".toList cfg.pkgname = false →
       idOf (stage2_metainfo cfg) = some (cfg.appId.getD [])) := by
  have hid : idOf (stage2_metainfo cfg) = some
      (if optTruthyEnds "-nightly".toList cfg.pkgname then
         cfg.appId.getD [] ++ "-nightly".toList
       else if optTruthyEnds "-git".toList cfg.pkgname then
         cfg.appId.getD [] ++ "-git".toList
       else cfg.appId.getD []) := by
    unfold stage2_metainfo
    rw [if_pos h]
    rfl
  refine ⟨?_, ?_, ?_⟩
  · intro p hp hend
    have hn := optTruthyEnds_of_some hp hend (by decide)
    rw [hid, if_pos hn]
  · intro p hp hend
    have hg := optTruthyEnds_of_some hp hend (by decide)
    have hn := optTruthyEnds_excl hg
    rw [hid, if_neg (by rw [hn]; decide), if_pos hg]
  · intro hn hg
    rw [hid, if_neg (by rw [hn]; decide), if_neg (by rw [hg]; decide)]

/-- The configuration for the C6 witness: a nightly package. -/
def c6cfg : Cfg :=
  { appId := some "org.example.App".toList, pkgname := some "app-nightly".toList }

/-- Witness for C6: the nightly package name yields the `-nightly`-suffixed id. -/
theorem stage2_id_suffix_witness :
    truthy c6cfg.appId = true
      ∧ idOf (stage2_metainfo c6cfg) = some "org.example.App-nightly".toList := by
  refine ⟨by decide, ?_⟩
  have h := (stage2_id_suffix c6cfg (by decide)).1 "app-nightly".toList rfl (by decide)
  rw [h]
  decide

/-- The configuration for C8: app identifier present, component type absent. -/
def c8cfg : Cfg := { appId := some "org.example.App".toList }

/-- C8 counterexample: with the component type absent, the synthesizer does
NOT omit the icon — it falls back to "console-application" and produces the
stock icon "terminal". -/
theorem stage2_icon_default_cex :
    c8cfg.componentType = none
      ∧ iconOf (stage2_metainfo c8cfg) = some ⟨"stock".toList, "terminal".toList⟩ :=
  ⟨rfl, by decide⟩

/-- C8 (amended): the baseline icon is derived from the component type through
the fixed table; a nonempty type missing from the table yields no icon, a
nonempty type found in the table yields its stock icon, and an absent or empty
type falls back to "console-application", yielding the stock icon "terminal". -/
theorem stage2_icon_amended (cfg : Cfg) (h : truthy cfg.appId = true) :
    (truthy cfg.componentType = false →
       iconOf (stage2_metainfo cfg) = some ⟨"stock".toList, "terminal".toList⟩)
    ∧ (∀ ct, cfg.componentType = some ct → ct ≠ [] →
        icon_type_map.find? (fun q => decide (q.1 = ct)) = none →
        iconOf (stage2_metainfo cfg) = none)
    ∧ (∀ ct q, cfg.componentType = some ct → ct ≠ [] →
        icon_type_map.find? (fun r => decide (r.1 = ct)) = some q →
        iconOf (stage2_metainfo cfg) = some ⟨"stock".toList, q.2⟩) := by
  have hic : iconOf (stage2_metainfo cfg) = get_icon_from_type
      (if truthy cfg.componentType then cfg.componentType
       else some "console-application".toList) := by
    unfold stage2_metainfo
    rw [if_pos h]
    rfl
  refine ⟨?_, ?_, ?_⟩
  · intro hf
    rw [hic, if_neg (by rw [hf]; decide)]
    decide
  · intro ct hct hne hfind
    have htr : truthy cfg.componentType = true := by
      rw [hct]
      cases ct with
      | nil => exact absurd rfl hne
      | cons a l => rfl
    rw [hic, if_pos htr, hct]
    simp only [get_icon_from_type]
    rw [hfind]
  · intro ct q hct hne hfind
    have htr : truthy cfg.componentType = true := by
      rw [hct]
      cases ct with
      | nil => exact absurd rfl hne
      | cons a l => rfl
    rw [hic, if_pos htr, hct]
    simp only [get_icon_from_type]
    rw [hfind]

/-- Witness for the amended C8 at the absent component type. -/
theorem stage2_icon_amended_witness :
    truthy c8cfg.appId = true
      ∧ iconOf (stage2_metainfo c8cfg) = some ⟨"stock".toList, "terminal".toList⟩ :=
  ⟨by decide, (stage2_icon_amended c8cfg (by decide)).1 (by decide)⟩

/-- C9: the scan appends a release for the effective package version only when
no release with that exact version string is present, so a duplicate-free
release list stays duplicate-free. -/
theorem releases_keyed_by_version (env : Env) (files : List FileEntry) (d : Doc) :
    (effVersion env ∈ d.releases →
       (prep_component env files d).releases = d.releases)
    ∧ (effVersion env ∉ d.releases →
       (prep_component env files d).releases = d.releases ++ [effVersion env])
    ∧ (d.releases.Nodup → (prep_component env files d).releases.Nodup) := by
  refine ⟨?_, ?_, ?_⟩
  · intro h
    rw [prep_component_releases, if_pos h]
  · intro h
    rw [prep_component_releases, if_neg h]
  · intro h
    rw [prep_component_releases]
    split
    · exact h
    · rename_i hmem
      exact nodup_append_single hmem h

/-- The environment for the C9 witness. -/
def c9env : Env := { rpmVersion := some "1.0".toList }

/-- A document that already carries the scanned version, for the C9 witness. -/
def c9doc : Doc := { releases := ["1.0".toList] }

/-- Witness for C9: a present version is not duplicated and the release list
stays duplicate-free. -/
theorem releases_keyed_by_version_witness :
    effVersion c9env ∈ c9doc.releases
      ∧ (prep_component c9env [] c9doc).releases = c9doc.releases
      ∧ (prep_component c9env [] c9doc).releases.Nodup :=
  ⟨by decide, (releases_keyed_by_version c9env [] c9doc).1 (by decide),
   (releases_keyed_by_version c9env [] c9doc).2.2 (by decide)⟩

/-- C10: every invocation of `prep_component` leaves a release entry whose
version is the configured package version, with the literal "unknown" used
when no package version is configured. -/
theorem release_always_injected (env : Env) (files : List FileEntry) (d : Doc) :
    env.rpmVersion.getD "unknown".toList ∈ (prep_component env files d).releases := by
  have he : env.rpmVersion.getD "unknown".toList = effVersion env := rfl
  rw [he, prep_component_releases]
  split
  · assumption
  · simp
